import Mathlib

/-!
Shallow embedding of the windowing engine `VirtualScrollOptimized`
(`src/core/VirtualScrollOptimized.ts`) of the virtual-scroll repository.

JavaScript numbers are modelled as rationals (`ℚ`); the exact arithmetic of
the claims stays within ranges where IEEE doubles are exact.  The item
position cache (a JS `Map` keyed by numbers) is modelled as a function
`ℤ → Option (ℚ × ℚ)` sending an index to its `(offset, size)` entry.  The
single outstanding scroll-end timer is modelled by two booleans: `timerSet`
(the `scrollEndTimer` field is non-null) and `timerActive` (the host timer is
still pending); the timer body is the explicit step function
`fireScrollEnd`.  The update callback slot is modelled by the boolean
`callback`; each operation returns the list of state snapshots passed to the
callback during that operation.
-/

namespace VirtualScrollOptimized

/-- JS `Math.round`: round half toward positive infinity, `⌊x + 1/2⌋`. -/
def jsRound (x : ℚ) : ℚ := (⌊x + 1/2⌋ : ℤ)

/-- The options record (`OptimizedOptions` with all defaults filled in).
`itemHeight : ℕ → ℚ` covers both the constant and the per-index form of the
source's `number | ((index: number) => number)`. -/
structure OptimizedOptions where
  itemCount : ℕ
  itemHeight : ℕ → ℚ
  containerHeight : ℚ
  overscanCount : ℚ
  minOverscan : ℚ
  maxOverscan : ℚ
  scrollVelocityThreshold : ℚ

/-- The engine state record (`OptimizedState`). -/
structure OptimizedState where
  startIndex : ℚ
  endIndex : ℚ
  scrollOffset : ℚ
  scrollVelocity : ℚ
  overscan : ℚ
  isScrolling : Bool
deriving DecidableEq

/-- The alignment argument of `scrollToIndex` (`'start' | 'center' | 'end'`). -/
inductive Align where
  | astart
  | acenter
  | aend
deriving DecidableEq

/-- The whole engine object: options, state, item position cache, the two
velocity-sampling fields, the scroll-end timer (field set / host timer
pending), and whether an update callback is attached. -/
structure Engine where
  opts : OptimizedOptions
  state : OptimizedState
  cache : ℤ → Option (ℚ × ℚ)
  lastScrollTime : ℚ
  lastScrollOffset : ℚ
  timerSet : Bool
  timerActive : Bool
  callback : Bool

/-- The loop body of `calculateItemPositions`: starting at index `i` with
running prefix `offset`, perform `n` iterations of
`cache.set(i, {offset, size}); offset += size`. -/
def calcLoop (s : ℕ → ℚ) (cache : ℤ → Option (ℚ × ℚ)) (i : ℕ) (offset : ℚ) :
    ℕ → (ℤ → Option (ℚ × ℚ))
  | 0 => cache
  | n + 1 =>
      calcLoop s (fun j => if j = (i : ℤ) then some (offset, s i) else cache j)
        (i + 1) (offset + s i) n

/-- `calculateItemPositions()`: run the loop for `itemCount` iterations from
index `0` and offset `0` over the existing cache (the cache is not cleared). -/
def calculateItemPositions (e : Engine) : Engine :=
  { e with cache := calcLoop e.opts.itemHeight e.cache 0 0 e.opts.itemCount }

/-- The binary-search loop of `findStartIndex`.  `high1` is `high + 1`, so
the JS loop guard `low <= high` is `low < high1`, the JS
`mid = Math.floor((low + high) / 2)` is `(low + high1 - 1) / 2` (written out
at each occurrence), and the final `Math.max(0, low - 1)` is truncated
subtraction on `ℕ`. -/
def fsiLoop (cache : ℤ → Option (ℚ × ℚ)) (t : ℚ) (low high1 : ℕ) : ℕ :=
  if low < high1 then
    if ((cache (((low + high1 - 1) / 2 : ℕ) : ℤ)).getD (0, 0)).1 ≤ t ∧
        t < ((cache (((low + high1 - 1) / 2 : ℕ) : ℤ)).getD (0, 0)).1 +
            ((cache (((low + high1 - 1) / 2 : ℕ) : ℤ)).getD (0, 0)).2 then
      (low + high1 - 1) / 2
    else if t < ((cache (((low + high1 - 1) / 2 : ℕ) : ℤ)).getD (0, 0)).1 then
      fsiLoop cache t low ((low + high1 - 1) / 2)
    else
      fsiLoop cache t ((low + high1 - 1) / 2 + 1) high1
  else low - 1
termination_by high1 - low
decreasing_by
  · omega
  · omega

/-- `findStartIndex(scrollOffset)` over a cache for `itemCount` items. -/
def findStartIndex (cache : ℤ → Option (ℚ × ℚ)) (itemCount : ℕ) (t : ℚ) : ℕ :=
  fsiLoop cache t 0 itemCount

/-- `calculateDynamicOverscan(velocity)`. -/
def calculateDynamicOverscan (o : OptimizedOptions) (velocity : ℚ) : ℚ :=
  let velocityFactor := min (velocity / o.scrollVelocityThreshold) 3
  let dynamicOverscan := jsRound (o.overscanCount * (1 + velocityFactor))
  max o.minOverscan (min o.maxOverscan dynamicOverscan)

/-- `calculateVelocity(scrollOffset)`, with the current clock value `now`
passed explicitly in place of `Date.now()`.  Returns the computed velocity
together with the engine with updated `lastScrollTime` / `lastScrollOffset`
(unchanged when the time delta is zero). -/
def calculateVelocity (e : Engine) (t now : ℚ) : ℚ × Engine :=
  let timeDelta := now - e.lastScrollTime
  if timeDelta = 0 then (e.state.scrollVelocity, e)
  else
    let offsetDelta := |t - e.lastScrollOffset|
    let velocity := offsetDelta / timeDelta * 1000
    (velocity, { e with lastScrollTime := now, lastScrollOffset := t })

/-- The visible-item-count loop of `updateVisibleRange`: walk `i` upward from
the located start index, stopping at `itemCount` or at the first item whose
offset is at least a viewport below the scroll offset. -/
def visLoop (cache : ℤ → Option (ℚ × ℚ)) (t C : ℚ) (itemCount i : ℕ) : ℕ :=
  if i < itemCount then
    if C ≤ ((cache (i : ℤ)).getD (0, 0)).1 - t then 0
    else visLoop cache t C itemCount (i + 1) + 1
  else 0
termination_by itemCount - i
decreasing_by omega

/-- `updateVisibleRange()`. -/
def updateVisibleRange (e : Engine) : Engine :=
  let t := e.state.scrollOffset
  let s := findStartIndex e.cache e.opts.itemCount t
  let overscan := calculateDynamicOverscan e.opts e.state.scrollVelocity
  let visibleItemCount := visLoop e.cache t e.opts.containerHeight e.opts.itemCount s
  { e with state :=
    { e.state with
      startIndex := max 0 ((s : ℚ) - overscan)
      endIndex := min ((e.opts.itemCount : ℚ) - 1) ((s : ℚ) + visibleItemCount + overscan)
      overscan := overscan } }

/-- `notifyUpdate()`: the snapshot passed to the callback, when one is
attached (`this.updateCallback?.(this.getState())`). -/
def notifyList (e : Engine) : List OptimizedState :=
  if e.callback then [e.state] else []

/-- The scroll-end delay passed to `window.setTimeout` in `handleScroll`. -/
def scrollEndDelay : ℚ := 150

/-- `handleScroll(scrollOffset)` with explicit clock value `now`; returns the
updated engine and the callback notifications it emitted.  Clearing any
previous timer and scheduling a new one leaves `timerSet` and `timerActive`
both true. -/
def handleScroll (e : Engine) (t now : ℚ) : Engine × List OptimizedState :=
  let ve := calculateVelocity e t now
  let e2 := { ve.2 with state :=
    { ve.2.state with scrollOffset := t, scrollVelocity := ve.1, isScrolling := true } }
  let e3 := updateVisibleRange e2
  ({ e3 with timerSet := true, timerActive := true }, notifyList e3)

/-- The body of the scroll-end timer scheduled by `handleScroll`: reset
velocity, scrolling flag and overscan, then recompute the visible range and
notify.  Firing consumes the pending host timer. -/
def fireScrollEnd (e : Engine) : Engine × List OptimizedState :=
  let e1 := { e with
    timerActive := false,
    state := { e.state with
      scrollVelocity := 0
      isScrolling := false
      overscan := e.opts.overscanCount } }
  let e2 := updateVisibleRange e1
  (e2, notifyList e2)

/-- `getTotalHeight()`. -/
def getTotalHeight (e : Engine) : ℚ :=
  match e.cache ((e.opts.itemCount : ℤ) - 1) with
  | some p => p.1 + p.2
  | none => 0

/-- `getItemOffset(index)`: `this.itemPositionCache.get(index)?.offset || 0`. -/
def getItemOffset (e : Engine) (index : ℤ) : ℚ :=
  match e.cache index with
  | some p => p.1
  | none => 0

/-- `getItemSize(index)`: `this.itemPositionCache.get(index)?.size || 0`. -/
def getItemSize (e : Engine) (index : ℤ) : ℚ :=
  match e.cache index with
  | some p => p.2
  | none => 0

/-- `scrollToIndex(index, align)`: returns the updated engine, the emitted
notifications, and the (clamped) offset returned to the caller. -/
def scrollToIndex (e : Engine) (index : ℤ) (align : Align) :
    Engine × List OptimizedState × ℚ :=
  match e.cache index with
  | none => (e, [], e.state.scrollOffset)
  | some position =>
    let targetOffset : ℚ :=
      match align with
      | .astart => position.1
      | .acenter => position.1 - (e.opts.containerHeight - position.2) / 2
      | .aend => position.1 - e.opts.containerHeight + position.2
    let targetOverscan := e.opts.maxOverscan
    let e1 := { e with state :=
      { e.state with
        scrollOffset := targetOffset
        startIndex := max 0 ((index : ℚ) - targetOverscan)
        endIndex := min ((e.opts.itemCount : ℚ) - 1) ((index : ℚ) + targetOverscan) } }
    (e1, notifyList e1,
      max 0 (min targetOffset (getTotalHeight e1 - e1.opts.containerHeight)))

/-- A partial options record as accepted by `updateOptions`
(`Partial<OptimizedOptions>`): each field may be absent. -/
structure OptionsPatch where
  itemCount : Option ℕ := none
  itemHeight : Option (ℕ → ℚ) := none
  containerHeight : Option ℚ := none
  overscanCount : Option ℚ := none
  minOverscan : Option ℚ := none
  maxOverscan : Option ℚ := none
  scrollVelocityThreshold : Option ℚ := none

/-- `Object.assign(this.options, options)`. -/
def mergeOptions (o : OptimizedOptions) (p : OptionsPatch) : OptimizedOptions where
  itemCount := p.itemCount.getD o.itemCount
  itemHeight := p.itemHeight.getD o.itemHeight
  containerHeight := p.containerHeight.getD o.containerHeight
  overscanCount := p.overscanCount.getD o.overscanCount
  minOverscan := p.minOverscan.getD o.minOverscan
  maxOverscan := p.maxOverscan.getD o.maxOverscan
  scrollVelocityThreshold := p.scrollVelocityThreshold.getD o.scrollVelocityThreshold

/-- `updateOptions(options)`. -/
def updateOptions (e : Engine) (p : OptionsPatch) : Engine × List OptimizedState :=
  let needsRecalculation := p.itemCount.isSome || p.itemHeight.isSome
  let e1 := { e with opts := mergeOptions e.opts p }
  if needsRecalculation then
    let e2 := updateVisibleRange (calculateItemPositions e1)
    (e2, notifyList e2)
  else (e1, [])

/-- `destroy()`: clear the host timer when the `scrollEndTimer` field is
non-null (the field itself is not reset), and detach the callback. -/
def destroy (e : Engine) : Engine :=
  { e with timerActive := if e.timerSet then false else e.timerActive,
           callback := false }

/-- `onUpdate(callback)`: attach a callback to the single slot. -/
def onUpdate (e : Engine) : Engine :=
  { e with callback := true }

/-- The constructor `new VirtualScrollOptimized(options)`: empty cache,
initial state, then `calculateItemPositions(); updateVisibleRange()`. -/
def mkEngine (o : OptimizedOptions) : Engine :=
  let e0 : Engine :=
    { opts := o
      state :=
        { startIndex := 0, endIndex := 0, scrollOffset := 0, scrollVelocity := 0,
          overscan := o.overscanCount, isScrolling := false }
      cache := fun _ => none
      lastScrollTime := 0
      lastScrollOffset := 0
      timerSet := false
      timerActive := false
      callback := false }
  updateVisibleRange (calculateItemPositions e0)

/-- The engine states reachable through the public interface. -/
inductive Reachable : Engine → Prop where
  | init (o : OptimizedOptions) : Reachable (mkEngine o)
  | scroll {e : Engine} (t now : ℚ) : Reachable e → Reachable (handleScroll e t now).1
  | fire {e : Engine} : Reachable e → e.timerActive = true → Reachable (fireScrollEnd e).1
  | toIndex {e : Engine} (i : ℤ) (a : Align) : Reachable e → Reachable (scrollToIndex e i a).1
  | update {e : Engine} (p : OptionsPatch) : Reachable e → Reachable (updateOptions e p).1
  | subscribe {e : Engine} : Reachable e → Reachable (onUpdate e)
  | teardown {e : Engine} : Reachable e → Reachable (destroy e)

/-- Prefix sums of the item sizes: the offset each item receives when the
position cache is built. -/
def offsetOf (s : ℕ → ℚ) : ℕ → ℚ
  | 0 => 0
  | n + 1 => offsetOf s n + s n

/-- A cache agrees with the prefix-sum table of sizes `s` on `[0, N)`. -/
def GoodCache (cache : ℤ → Option (ℚ × ℚ)) (s : ℕ → ℚ) (N : ℕ) : Prop :=
  ∀ i : ℕ, i < N → cache (i : ℤ) = some (offsetOf s i, s i)

/-- The alignment adjustment of `scrollToIndex` applied to a cached
`(offset, size)` pair, factored out of the `match` in `scrollToIndex`. -/
def alignTarget (p : ℚ × ℚ) (C : ℚ) : Align → ℚ
  | .astart => p.1
  | .acenter => p.1 - (C - p.2) / 2
  | .aend => p.1 - C + p.2

/-- The fixed-size demo configuration of the repository's tests:
1000 items of height 50, container 500, base overscan 3 in `[1, 10]`,
velocity threshold 100. -/
def demoOpts : OptimizedOptions := ⟨1000, fun _ => 50, 500, 3, 1, 10, 100⟩

/-- A small configuration: 10 items of height 50 in a 500-high container
(the whole list fits in the viewport). -/
def smallOpts : OptimizedOptions := ⟨10, fun _ => 50, 500, 3, 1, 10, 100⟩

/-- A configuration whose overscan bounds `[1, 2]` lie strictly below the
base overscan 3. -/
def tightOpts : OptimizedOptions := ⟨1, fun _ => 50, 500, 3, 1, 2, 100⟩

/-- A two-item configuration used for shrinking `itemCount` via
`updateOptions`. -/
def twoOpts : OptimizedOptions := ⟨2, fun _ => 50, 500, 3, 1, 10, 100⟩

lemma offsetOf_mono (s : ℕ → ℚ) (hs : ∀ k, 0 ≤ s k) : Monotone (offsetOf s) := by
  apply monotone_nat_of_le_succ
  intro n
  have := hs n
  simp only [offsetOf]
  linarith

lemma offsetOf_nonneg (s : ℕ → ℚ) (hs : ∀ k, 0 ≤ s k) (n : ℕ) : 0 ≤ offsetOf s n := by
  simpa [offsetOf] using offsetOf_mono s hs (Nat.zero_le n)

/-- With strictly positive sizes, at most one item's extent contains `t`. -/
lemma contains_unique (s : ℕ → ℚ) (hs : ∀ k, 0 < s k) {t : ℚ} {i j : ℕ}
    (h1 : offsetOf s i ≤ t) (h2 : t < offsetOf s i + s i)
    (h3 : offsetOf s j ≤ t) (h4 : t < offsetOf s j + s j) : i = j := by
  have hs' : ∀ k, 0 ≤ s k := fun k => le_of_lt (hs k)
  rcases lt_trichotomy i j with h | h | h
  · exfalso
    have hm : offsetOf s (i + 1) ≤ offsetOf s j := offsetOf_mono s hs' h
    simp only [offsetOf] at hm
    linarith
  · exact h
  · exfalso
    have hm : offsetOf s (j + 1) ≤ offsetOf s i := offsetOf_mono s hs' h
    simp only [offsetOf] at hm
    linarith

/-- Entries not touched by the `calculateItemPositions` loop keep their
previous cache value. -/
lemma calcLoop_get_out (s : ℕ → ℚ) :
    ∀ (n i : ℕ) (cache : ℤ → Option (ℚ × ℚ)) (offset : ℚ) (k : ℤ),
      ¬((i : ℤ) ≤ k ∧ k < (i : ℤ) + (n : ℤ)) →
      calcLoop s cache i offset n k = cache k := by
  intro n
  induction n with
  | zero => intro i cache offset k hk; rfl
  | succ n ih =>
      intro i cache offset k hk
      rw [calcLoop, ih (i + 1) _ _ k (by push_cast at hk ⊢; omega)]
      have : k ≠ (i : ℤ) := by push_cast at hk; omega
      simp [this]

/-- Entries written by the `calculateItemPositions` loop: starting at index
`i` with the matching prefix offset, the loop stores the prefix-sum entry at
every index it visits. -/
lemma calcLoop_get_in (s : ℕ → ℚ) :
    ∀ (n i : ℕ) (cache : ℤ → Option (ℚ × ℚ)) (j : ℕ), i ≤ j → j < i + n →
      calcLoop s cache i (offsetOf s i) n (j : ℤ) = some (offsetOf s j, s j) := by
  intro n
  induction n with
  | zero => intro i cache j h1 h2; omega
  | succ n ih =>
      intro i cache j h1 h2
      have hoff : offsetOf s i + s i = offsetOf s (i + 1) := rfl
      rw [calcLoop, hoff]
      by_cases hj : j = i
      · subst hj
        rw [calcLoop_get_out s n (j + 1) _ _ _ (by push_cast; omega)]
        simp
      · rw [ih (i + 1) _ j (by omega) (by omega)]

/-- The binary-search loop never returns an index past `high1 - 1`
(truncated subtraction), for any cache whatsoever. -/
lemma fsiLoop_le (cache : ℤ → Option (ℚ × ℚ)) (t : ℚ) :
    ∀ low high1 : ℕ, low ≤ high1 → fsiLoop cache t low high1 ≤ high1 - 1 := by
  intro low high1
  induction low, high1 using fsiLoop.induct cache t with
  | case1 low high1 hlt hcond =>
      intro _
      rw [fsiLoop.eq_def, if_pos hlt, if_pos hcond]
      omega
  | case2 low high1 hlt hcond hlt2 ih =>
      intro _
      rw [fsiLoop.eq_def, if_pos hlt, if_neg hcond, if_pos hlt2]
      have := ih (by omega)
      omega
  | case3 low high1 hlt hcond hge ih =>
      intro _
      rw [fsiLoop.eq_def, if_pos hlt, if_neg hcond, if_neg hge]
      have := ih (by omega)
      omega
  | case4 low high1 hge =>
      intro h
      rw [fsiLoop.eq_def, if_neg hge]
      omega

/-- Full correctness of the binary-search loop over a prefix-sum cache with
strictly positive sizes, relative to the loop invariants: everything below
`low` ends at or before `t`, everything at or above `high1` starts after
`t`. -/
lemma fsiLoop_spec (s : ℕ → ℚ) (hs : ∀ k, 0 < s k) (N : ℕ)
    (cache : ℤ → Option (ℚ × ℚ)) (hc : GoodCache cache s N) (t : ℚ) :
    ∀ low high1 : ℕ, low ≤ high1 → high1 ≤ N →
      (∀ i < low, offsetOf s i + s i ≤ t) →
      (∀ i, high1 ≤ i → i < N → t < offsetOf s i) →
      (∀ i < N, offsetOf s i ≤ t → t < offsetOf s i + s i → fsiLoop cache t low high1 = i) ∧
      (t < 0 → fsiLoop cache t low high1 = 0) ∧
      (offsetOf s N ≤ t → fsiLoop cache t low high1 = N - 1) ∧
      (1 ≤ N → fsiLoop cache t low high1 < N) := by
  have hs' : ∀ k, 0 ≤ s k := fun k => le_of_lt (hs k)
  intro low high1
  induction low, high1 using fsiLoop.induct cache t with
  | case1 low high1 hlt hcond =>
      intro hle hhN hinvL hinvR
      have hmidN : (low + high1 - 1) / 2 < N := by omega
      have hval : fsiLoop cache t low high1 = (low + high1 - 1) / 2 := by
        rw [fsiLoop.eq_def, if_pos hlt, if_pos hcond]
      rw [hc _ hmidN] at hcond
      simp only [Option.getD_some] at hcond
      refine ⟨?_, ?_, ?_, ?_⟩
      · intro i hiN h1 h2
        rw [hval]
        exact contains_unique s hs hcond.1 hcond.2 h1 h2
      · intro ht
        exfalso
        have := offsetOf_nonneg s hs' ((low + high1 - 1) / 2)
        linarith [hcond.1]
      · intro ht
        exfalso
        have hm : offsetOf s ((low + high1 - 1) / 2 + 1) ≤ offsetOf s N :=
          offsetOf_mono s hs' (by omega)
        simp only [offsetOf] at hm
        linarith [hcond.2]
      · intro _
        rw [hval]
        omega
  | case2 low high1 hlt hcond hlt2 ih =>
      intro hle hhN hinvL hinvR
      have hmidN : (low + high1 - 1) / 2 < N := by omega
      have hval : fsiLoop cache t low high1 = fsiLoop cache t low ((low + high1 - 1) / 2) := by
        rw [fsiLoop.eq_def, if_pos hlt, if_neg hcond, if_pos hlt2]
      rw [hc _ hmidN] at hlt2
      simp only [Option.getD_some] at hlt2
      have hih := ih (by omega) (by omega) hinvL
        (fun i hmi hiN => lt_of_lt_of_le hlt2 (offsetOf_mono s hs' hmi))
      rw [hval]
      exact hih
  | case3 low high1 hlt hcond hge ih =>
      intro hle hhN hinvL hinvR
      have hmidN : (low + high1 - 1) / 2 < N := by
        omega
      have hval : fsiLoop cache t low high1 =
          fsiLoop cache t ((low + high1 - 1) / 2 + 1) high1 := by
        rw [fsiLoop.eq_def, if_pos hlt, if_neg hcond, if_neg hge]
      rw [hc _ hmidN] at hcond hge
      simp only [Option.getD_some] at hcond hge
      have hge' : offsetOf s ((low + high1 - 1) / 2) ≤ t := le_of_not_lt hge
      have hend : offsetOf s ((low + high1 - 1) / 2) + s ((low + high1 - 1) / 2) ≤ t := by
        by_contra hb
        exact hcond ⟨hge', lt_of_not_le hb⟩
      have hinvL' : ∀ i < (low + high1 - 1) / 2 + 1, offsetOf s i + s i ≤ t := by
        intro i hi
        have hm : offsetOf s (i + 1) ≤ offsetOf s ((low + high1 - 1) / 2 + 1) :=
          offsetOf_mono s hs' (by omega)
        simp only [offsetOf] at hm
        linarith
      have hih := ih (by omega) hhN hinvL' hinvR
      rw [hval]
      exact hih
  | case4 low high1 hnlt =>
      intro hle hhN hinvL hinvR
      have hlh : low = high1 := by omega
      have hval : fsiLoop cache t low high1 = low - 1 := by
        rw [fsiLoop.eq_def, if_neg hnlt]
      by_cases hlow0 : low = 0
      · refine ⟨?_, ?_, ?_, ?_⟩
        · intro i hiN h1 h2
          exfalso
          have := hinvR i (by omega) hiN
          linarith
        · intro _
          rw [hval]
          omega
        · intro ht
          rw [hval]
          rcases Nat.eq_zero_or_pos N with hN0 | hN1
          · omega
          · exfalso
            have h1 := hinvR (N - 1) (by omega) (by omega)
            have h2 : offsetOf s (N - 1) ≤ offsetOf s N := offsetOf_mono s hs' (by omega)
            linarith
        · intro _
          rw [hval]
          omega
      · obtain ⟨k, rfl⟩ := Nat.exists_eq_succ_of_ne_zero hlow0
        by_cases hlN : k + 1 < N
        · exfalso
          have h1 := hinvL k (by omega)
          have h2 := hinvR (k + 1) (by omega) hlN
          simp only [offsetOf] at h2
          linarith
        · have hlowN : k + 1 = N := by omega
          refine ⟨?_, ?_, ?_, ?_⟩
          · intro i hiN h1 h2
            exfalso
            have := hinvL i (by omega)
            linarith
          · intro ht
            exfalso
            have := hinvL 0 (by omega)
            simp only [offsetOf] at this
            linarith [hs 0]
          · intro _
            rw [hval]
            omega
          · intro _
            rw [hval]
            omega

@[simp] lemma uvr_opts (e : Engine) : (updateVisibleRange e).opts = e.opts := rfl

@[simp] lemma uvr_cache (e : Engine) : (updateVisibleRange e).cache = e.cache := rfl

@[simp] lemma uvr_scrollOffset (e : Engine) :
    (updateVisibleRange e).state.scrollOffset = e.state.scrollOffset := rfl

@[simp] lemma uvr_scrollVelocity (e : Engine) :
    (updateVisibleRange e).state.scrollVelocity = e.state.scrollVelocity := rfl

@[simp] lemma uvr_isScrolling (e : Engine) :
    (updateVisibleRange e).state.isScrolling = e.state.isScrolling := rfl

@[simp] lemma uvr_callback (e : Engine) : (updateVisibleRange e).callback = e.callback := rfl

@[simp] lemma uvr_timerSet (e : Engine) : (updateVisibleRange e).timerSet = e.timerSet := rfl

@[simp] lemma uvr_timerActive (e : Engine) :
    (updateVisibleRange e).timerActive = e.timerActive := rfl

@[simp] lemma cip_opts (e : Engine) : (calculateItemPositions e).opts = e.opts := rfl

@[simp] lemma mk_opts (o : OptimizedOptions) : (mkEngine o).opts = o := rfl

@[simp] lemma cip_state (e : Engine) : (calculateItemPositions e).state = e.state := rfl

@[simp] lemma cip_callback (e : Engine) : (calculateItemPositions e).callback = e.callback := rfl

/-- `calculateItemPositions` leaves every index in `[0, itemCount)` holding
the prefix-sum entry for the current size function. -/
lemma calculateItemPositions_good (e : Engine) :
    GoodCache (calculateItemPositions e).cache e.opts.itemHeight e.opts.itemCount := by
  intro i hi
  have h := calcLoop_get_in e.opts.itemHeight e.opts.itemCount 0 e.cache i
    (Nat.zero_le i) (by omega)
  simpa [calculateItemPositions] using h

/-- The constructor builds the prefix-sum cache. -/
lemma mkEngine_good (o : OptimizedOptions) :
    GoodCache (mkEngine o).cache o.itemHeight o.itemCount := by
  intro i hi
  have h := calculateItemPositions_good
    { opts := o
      state :=
        { startIndex := 0, endIndex := 0, scrollOffset := 0, scrollVelocity := 0,
          overscan := o.overscanCount, isScrolling := false }
      cache := fun _ => none
      lastScrollTime := 0
      lastScrollOffset := 0
      timerSet := false
      timerActive := false
      callback := false }
  exact h i hi

/-- Lookups against a prefix-sum cache. -/
lemma getItem_built {E : Engine} {s : ℕ → ℚ} {N : ℕ}
    (hc : GoodCache E.cache s N) {i : ℕ} (hi : i < N) :
    getItemOffset E (i : ℤ) = offsetOf s i ∧ getItemSize E (i : ℤ) = s i := by
  constructor <;> simp [getItemOffset, getItemSize, hc i hi]

/-- C1: for every position index built over `itemCount = N ≥ 1` items with
strictly positive sizes and every target offset `t`, `findStartIndex t` stays
in `[0, N-1]`, returns the unique (hence greatest) index whose extent
`[offset i, offset i + size i)` contains `t`, is clamped to `0` when `t`
lies before the first item and to `N - 1` when `t` is at or past the total
extent, and on a boundary `t = offset i` returns `i` itself (the item that
starts at `t`, not `i - 1`). -/
theorem C1_findStartIndex_locates (s : ℕ → ℚ) (N : ℕ) (cache : ℤ → Option (ℚ × ℚ))
    (t : ℚ) (hN : 1 ≤ N) (hs : ∀ k, 0 < s k) (hc : GoodCache cache s N) :
    findStartIndex cache N t < N ∧
    (∀ i < N, offsetOf s i ≤ t → t < offsetOf s i + s i → findStartIndex cache N t = i) ∧
    (t < offsetOf s 0 → findStartIndex cache N t = 0) ∧
    (offsetOf s (N - 1) + s (N - 1) ≤ t → findStartIndex cache N t = N - 1) ∧
    (∀ i < N, t = offsetOf s i → findStartIndex cache N t = i) := by
  have h := fsiLoop_spec s hs N cache hc t 0 N (Nat.zero_le N) (le_refl N)
      (fun i hi => absurd hi (Nat.not_lt_zero i))
      (fun i h1 h2 => absurd (lt_of_le_of_lt h1 h2) (lt_irrefl N))
  have hNoff : offsetOf s (N - 1) + s (N - 1) = offsetOf s N := by
    obtain ⟨k, rfl⟩ := Nat.exists_eq_succ_of_ne_zero (by omega : N ≠ 0)
    simp [offsetOf]
  refine ⟨h.2.2.2 hN, h.1, ?_, ?_, ?_⟩
  · intro ht
    exact h.2.1 (by simpa [offsetOf] using ht)
  · intro ht
    exact h.2.2.1 (hNoff ▸ ht)
  · intro i hiN ht
    exact h.1 i hiN (le_of_eq ht.symm) (by rw [ht]; linarith [hs i])

/-- Witness for C1 at a concrete boundary: three items of size 50, target
offset exactly on the boundary 50; the item that starts there (index 1) is
returned. -/
theorem C1_findStartIndex_locates_witness :
    (1 : ℕ) ≤ 3 ∧ (∀ _ : ℕ, (0 : ℚ) < 50) ∧
    findStartIndex (mkEngine ⟨3, fun _ => 50, 500, 3, 1, 10, 100⟩).cache 3 50 = 1 := by
  have h := C1_findStartIndex_locates (fun _ => (50 : ℚ)) 3
    (mkEngine ⟨3, fun _ => 50, 500, 3, 1, 10, 100⟩).cache 50 (by norm_num)
    (fun _ => by norm_num) (mkEngine_good _)
  exact ⟨by norm_num, fun _ => by norm_num,
    h.2.2.2.2 1 (by norm_num) (by norm_num [offsetOf])⟩

/-- Prefix-sum recurrence of the lookup helpers over any engine whose cache
agrees with the prefix-sum table on `[0, N)`. -/
lemma positionsRecurrence {E : Engine} {s : ℕ → ℚ} {N : ℕ} (hc : GoodCache E.cache s N) :
    (0 < N → getItemOffset E 0 = 0) ∧
    (∀ i : ℕ, 0 < i → i < N →
      getItemOffset E (i : ℤ) =
        getItemOffset E ((i : ℤ) - 1) + getItemSize E ((i : ℤ) - 1) ∧
      getItemSize E (i : ℤ) = s i) := by
  constructor
  · intro hN
    have h := (getItem_built hc hN).1
    simpa [offsetOf] using h
  · intro i h0 hiN
    obtain ⟨k, rfl⟩ := Nat.exists_eq_succ_of_ne_zero (Nat.pos_iff_ne_zero.mp h0)
    have hcast : ((k + 1 : ℕ) : ℤ) - 1 = (k : ℤ) := by push_cast; ring
    have h1 := getItem_built hc hiN
    have h2 := getItem_built hc (by omega : k < N)
    refine ⟨?_, h1.2⟩
    rw [h1.1, hcast, h2.1, h2.2]
    simp [offsetOf]

/-- After an `updateOptions` call supplying `itemCount` or `itemHeight`, the
cache agrees with the prefix sums of the merged options on the merged
`[0, itemCount)`. -/
lemma updateOptions_good (e : Engine) (p : OptionsPatch)
    (hp : p.itemCount.isSome ∨ p.itemHeight.isSome) :
    GoodCache (updateOptions e p).1.cache (mergeOptions e.opts p).itemHeight
      (mergeOptions e.opts p).itemCount := by
  have hb : (p.itemCount.isSome || p.itemHeight.isSome) = true := by
    rcases hp with h | h <;> simp [h]
  intro i hi
  have h := calculateItemPositions_good { e with opts := mergeOptions e.opts p } i hi
  simpa [updateOptions, hb] using h

/-- C2: after the position index is built — at engine construction, or by an
`updateOptions` call that supplies `itemCount` or `itemHeight` — the offsets
are the prefix sums of the sizes: `offset 0 = 0` and, for `0 < i < N`,
`offset i = offset (i-1) + size (i-1)` with `size i = s i`; for the example
sizes `s i = 50 + (i % 3) * 20` the offsets of items 0..3 are 0, 50, 120,
210. -/
theorem C2_positions_prefix_sum (o : OptimizedOptions) (e : Engine) (p : OptionsPatch)
    (hp : p.itemCount.isSome ∨ p.itemHeight.isSome) :
    ((0 < o.itemCount → getItemOffset (mkEngine o) 0 = 0) ∧
     (∀ i : ℕ, 0 < i → i < o.itemCount →
       getItemOffset (mkEngine o) (i : ℤ) =
         getItemOffset (mkEngine o) ((i : ℤ) - 1) + getItemSize (mkEngine o) ((i : ℤ) - 1) ∧
       getItemSize (mkEngine o) (i : ℤ) = o.itemHeight i)) ∧
    ((0 < (mergeOptions e.opts p).itemCount → getItemOffset (updateOptions e p).1 0 = 0) ∧
     (∀ i : ℕ, 0 < i → i < (mergeOptions e.opts p).itemCount →
       getItemOffset (updateOptions e p).1 (i : ℤ) =
         getItemOffset (updateOptions e p).1 ((i : ℤ) - 1) +
           getItemSize (updateOptions e p).1 ((i : ℤ) - 1) ∧
       getItemSize (updateOptions e p).1 (i : ℤ) = (mergeOptions e.opts p).itemHeight i)) ∧
    (getItemOffset (mkEngine ⟨100, fun i => 50 + ((i % 3 : ℕ) : ℚ) * 20, 500, 3, 1, 10, 100⟩)
        0 = 0 ∧
     getItemOffset (mkEngine ⟨100, fun i => 50 + ((i % 3 : ℕ) : ℚ) * 20, 500, 3, 1, 10, 100⟩)
        1 = 50 ∧
     getItemOffset (mkEngine ⟨100, fun i => 50 + ((i % 3 : ℕ) : ℚ) * 20, 500, 3, 1, 10, 100⟩)
        2 = 120 ∧
     getItemOffset (mkEngine ⟨100, fun i => 50 + ((i % 3 : ℕ) : ℚ) * 20, 500, 3, 1, 10, 100⟩)
        3 = 210) := by
  refine ⟨positionsRecurrence (mkEngine_good o), positionsRecurrence (updateOptions_good e p hp), ?_⟩
  have hg := mkEngine_good ⟨100, fun i => 50 + ((i % 3 : ℕ) : ℚ) * 20, 500, 3, 1, 10, 100⟩
  have h0 := (getItem_built hg (by norm_num : (0 : ℕ) < 100)).1
  have h1 := (getItem_built hg (by norm_num : (1 : ℕ) < 100)).1
  have h2 := (getItem_built hg (by norm_num : (2 : ℕ) < 100)).1
  have h3 := (getItem_built hg (by norm_num : (3 : ℕ) < 100)).1
  refine ⟨?_, ?_, ?_, ?_⟩
  · rw [show ((0 : ℕ) : ℤ) = 0 from rfl] at h0
    rw [h0]
    norm_num [offsetOf]
  · rw [show ((1 : ℕ) : ℤ) = 1 from rfl] at h1
    rw [h1]
    norm_num [offsetOf]
  · rw [show ((2 : ℕ) : ℤ) = 2 from rfl] at h2
    rw [h2]
    norm_num [offsetOf]
  · rw [show ((3 : ℕ) : ℤ) = 3 from rfl] at h3
    rw [h3]
    norm_num [offsetOf]

/-- Witness for C2: two items of fixed size 50; after construction the
offset of item 1 equals the offset of item 0 plus its size. -/
theorem C2_positions_prefix_sum_witness :
    ((some (2 : ℕ)).isSome = true ∨ (none : Option (ℕ → ℚ)).isSome = true) ∧
    getItemOffset (mkEngine ⟨2, fun _ => (50 : ℚ), 500, 3, 1, 10, 100⟩) 1 =
      getItemOffset (mkEngine ⟨2, fun _ => (50 : ℚ), 500, 3, 1, 10, 100⟩) 0 +
        getItemSize (mkEngine ⟨2, fun _ => (50 : ℚ), 500, 3, 1, 10, 100⟩) 0 := by
  constructor
  · left
    rfl
  · have h := C2_positions_prefix_sum ⟨2, fun _ => (50 : ℚ), 500, 3, 1, 10, 100⟩
      (mkEngine ⟨2, fun _ => (50 : ℚ), 500, 3, 1, 10, 100⟩)
      ⟨some 2, none, none, none, none, none, none⟩ (Or.inl rfl)
    have h1 := (h.1.2 1 (by norm_num) (by norm_num)).1
    simpa using h1

lemma jsRound_mono {x y : ℚ} (h : x ≤ y) : jsRound x ≤ jsRound y := by
  unfold jsRound
  exact_mod_cast Int.floor_le_floor (by linarith)

/-- C4: the dynamic overscan equals `round(base * (1 + min(v/threshold, 3)))`
clamped to `[minOverscan, maxOverscan]`; it is monotone in the velocity and
always lies within the configured bounds. -/
theorem C4_dynamicOverscan_monotone_bounded (o : OptimizedOptions) (v v1 v2 : ℚ)
    (hthr : 0 < o.scrollVelocityThreshold) (hbase : 0 ≤ o.overscanCount)
    (hmm : o.minOverscan ≤ o.maxOverscan) (h12 : v1 < v2) :
    calculateDynamicOverscan o v =
      max o.minOverscan (min o.maxOverscan
        (jsRound (o.overscanCount * (1 + min (v / o.scrollVelocityThreshold) 3)))) ∧
    calculateDynamicOverscan o v1 ≤ calculateDynamicOverscan o v2 ∧
    o.minOverscan ≤ calculateDynamicOverscan o v ∧
    calculateDynamicOverscan o v ≤ o.maxOverscan := by
  refine ⟨rfl, ?_, le_max_left _ _, max_le hmm (min_le_left _ _)⟩
  have hdiv : v1 / o.scrollVelocityThreshold ≤ v2 / o.scrollVelocityThreshold :=
    div_le_div_of_nonneg_right (le_of_lt h12) (le_of_lt hthr)
  have hmul : o.overscanCount * (1 + min (v1 / o.scrollVelocityThreshold) 3) ≤
      o.overscanCount * (1 + min (v2 / o.scrollVelocityThreshold) 3) :=
    mul_le_mul_of_nonneg_left
      (by have := min_le_min hdiv (le_refl (3 : ℚ)); linarith) hbase
  exact max_le_max (le_refl _) (min_le_min (le_refl _) (jsRound_mono hmul))

/-- Witness for C4: with base 3, bounds `[1, 15]`, threshold 100, the
overscan at velocity 0 is at most the overscan at velocity 200. -/
theorem C4_dynamicOverscan_monotone_bounded_witness :
    (0 : ℚ) < 100 ∧ (0 : ℚ) ≤ 3 ∧ (1 : ℚ) ≤ 15 ∧ (0 : ℚ) < 200 ∧
    calculateDynamicOverscan ⟨1000, fun _ => 50, 500, 3, 1, 15, 100⟩ 0 ≤
      calculateDynamicOverscan ⟨1000, fun _ => 50, 500, 3, 1, 15, 100⟩ 200 :=
  ⟨by norm_num, by norm_num, by norm_num, by norm_num,
    (C4_dynamicOverscan_monotone_bounded ⟨1000, fun _ => 50, 500, 3, 1, 15, 100⟩ 0 0 200
      (by norm_num) (by norm_num) (by norm_num) (by norm_num)).2.1⟩

lemma offsetOf_const (c : ℚ) (n : ℕ) : offsetOf (fun _ => c) n = c * n := by
  induction n with
  | zero => simp [offsetOf]
  | succ k ih =>
      simp only [offsetOf, ih]
      push_cast
      ring

/-- The total extent of an engine whose cache agrees with the prefix sums on
`[0, itemCount)`. -/
lemma getTotalHeight_built {e : Engine} {s : ℕ → ℚ}
    (hc : GoodCache e.cache s e.opts.itemCount) (hN : 1 ≤ e.opts.itemCount) :
    getTotalHeight e = offsetOf s e.opts.itemCount := by
  unfold getTotalHeight
  have hcast : ((e.opts.itemCount : ℤ) - 1) = ((e.opts.itemCount - 1 : ℕ) : ℤ) := by
    push_cast [Nat.cast_sub hN]
    ring
  rw [hcast, hc _ (by omega)]
  obtain ⟨k, hk⟩ := Nat.exists_eq_succ_of_ne_zero (by omega : e.opts.itemCount ≠ 0)
  rw [hk]
  simp [offsetOf]

/-- On a cache hit, `scrollToIndex` stores the raw alignment-adjusted target
offset and the pre-expanded range into the state, notifies, and returns the
clamped target offset. -/
lemma scrollToIndex_hit {e : Engine} {idx : ℤ} {p : ℚ × ℚ} (a : Align)
    (h : e.cache idx = some p) :
    scrollToIndex e idx a =
      ({ e with state :=
        { e.state with
          scrollOffset := alignTarget p e.opts.containerHeight a
          startIndex := max 0 ((idx : ℚ) - e.opts.maxOverscan)
          endIndex := min ((e.opts.itemCount : ℚ) - 1) ((idx : ℚ) + e.opts.maxOverscan) } },
       notifyList { e with state :=
        { e.state with
          scrollOffset := alignTarget p e.opts.containerHeight a
          startIndex := max 0 ((idx : ℚ) - e.opts.maxOverscan)
          endIndex := min ((e.opts.itemCount : ℚ) - 1) ((idx : ℚ) + e.opts.maxOverscan) } },
       max 0 (min (alignTarget p e.opts.containerHeight a)
         (getTotalHeight e - e.opts.containerHeight))) := by
  rcases a <;> simp only [scrollToIndex, h, alignTarget] <;> rfl

/-- C3: for every index in `[0, itemCount)` and every alignment,
`scrollToIndex` pre-expands the stored visible range to
`[index - maxOverscan, index + maxOverscan]` clamped to `[0, itemCount-1]`,
notifies the attached callback, and returns the alignment-adjusted target
offset clamped to `[0, totalExtent - viewportExtent]` (0 when that bound is
negative); e.g. `scrollToIndex 20 center` on 1000 items of size 50 with
viewport 500 returns 775. -/
theorem C3_scrollToIndex_aligned_clamped (e : Engine) (i : ℕ) (a : Align)
    (hc : GoodCache e.cache e.opts.itemHeight e.opts.itemCount)
    (hi : i < e.opts.itemCount) :
    ((scrollToIndex e (i : ℤ) a).1.state.startIndex =
        max 0 ((i : ℚ) - e.opts.maxOverscan) ∧
      (scrollToIndex e (i : ℤ) a).1.state.endIndex =
        min ((e.opts.itemCount : ℚ) - 1) ((i : ℚ) + e.opts.maxOverscan)) ∧
    (e.callback = true →
      (scrollToIndex e (i : ℤ) a).2.1 = [(scrollToIndex e (i : ℤ) a).1.state]) ∧
    ((a = Align.astart → (scrollToIndex e (i : ℤ) a).2.2 =
        max 0 (min (offsetOf e.opts.itemHeight i)
          (offsetOf e.opts.itemHeight e.opts.itemCount - e.opts.containerHeight))) ∧
     (a = Align.acenter → (scrollToIndex e (i : ℤ) a).2.2 =
        max 0 (min (offsetOf e.opts.itemHeight i -
            (e.opts.containerHeight - e.opts.itemHeight i) / 2)
          (offsetOf e.opts.itemHeight e.opts.itemCount - e.opts.containerHeight))) ∧
     (a = Align.aend → (scrollToIndex e (i : ℤ) a).2.2 =
        max 0 (min (offsetOf e.opts.itemHeight i -
            e.opts.containerHeight + e.opts.itemHeight i)
          (offsetOf e.opts.itemHeight e.opts.itemCount - e.opts.containerHeight)))) ∧
    (offsetOf e.opts.itemHeight e.opts.itemCount - e.opts.containerHeight < 0 →
      (scrollToIndex e (i : ℤ) a).2.2 = 0) ∧
    (scrollToIndex (mkEngine demoOpts) 20 Align.acenter).2.2 = 775 := by
  have hsome := hc i hi
  have hN : 1 ≤ e.opts.itemCount := by omega
  have htot : getTotalHeight e = offsetOf e.opts.itemHeight e.opts.itemCount :=
    getTotalHeight_built hc hN
  have hconcrete : (scrollToIndex (mkEngine demoOpts) 20 Align.acenter).2.2 = 775 := by
    have hg := mkEngine_good demoOpts
    have h20 := hg 20 (by norm_num [demoOpts])
    simp only [Nat.cast_ofNat] at h20
    have htot1000 : getTotalHeight (mkEngine demoOpts) =
        offsetOf demoOpts.itemHeight demoOpts.itemCount :=
      getTotalHeight_built hg (by rw [mk_opts]; norm_num [demoOpts])
    rw [scrollToIndex_hit Align.acenter h20, htot1000]
    norm_num [demoOpts, offsetOf_const, alignTarget]
  rw [scrollToIndex_hit a hsome, htot]
  refine ⟨⟨rfl, rfl⟩, ?_, ⟨?_, ?_, ?_⟩, ?_, hconcrete⟩
  · intro hcb
    simp [notifyList, hcb]
  · intro ha
    subst ha
    simp [alignTarget]
  · intro ha
    subst ha
    simp [alignTarget]
  · intro ha
    subst ha
    simp [alignTarget]
  · intro hneg
    exact max_eq_left (le_trans (min_le_right _ _) (le_of_lt hneg))

/-- Witness for C3: centering item 20 of the 1000-item demo engine returns
offset 775. -/
theorem C3_scrollToIndex_aligned_clamped_witness :
    (20 : ℕ) < demoOpts.itemCount ∧
    (scrollToIndex (mkEngine demoOpts) 20 Align.acenter).2.2 = 775 := by
  have h := C3_scrollToIndex_aligned_clamped (mkEngine demoOpts) 20 Align.acenter
    (mkEngine_good demoOpts) (by rw [mk_opts]; norm_num [demoOpts])
  exact ⟨by norm_num [demoOpts], h.2.2.2.2⟩

/-- C10: `scrollToIndex` writes the raw, unclamped alignment-adjusted target
offset into the engine state (only the returned value is clamped), so the
stored `scrollOffset` can be negative — centering item 0 of a 10-item list
in a 500-high viewport stores -225 while returning 0 — and on a cache miss
it returns the current `scrollOffset`, leaving the engine unchanged and
emitting no notification. -/
theorem C10_scrollToIndex_raw_store_and_miss (e : Engine) (idx : ℤ) (a : Align) :
    (∀ p : ℚ × ℚ, e.cache idx = some p →
      (scrollToIndex e idx a).1.state.scrollOffset =
        alignTarget p e.opts.containerHeight a) ∧
    (e.cache idx = none → scrollToIndex e idx a = (e, [], e.state.scrollOffset)) ∧
    ((scrollToIndex (mkEngine smallOpts) 0 Align.acenter).1.state.scrollOffset = -225 ∧
     (scrollToIndex (mkEngine smallOpts) 0 Align.acenter).2.2 = 0) := by
  have h0 : (mkEngine smallOpts).cache 0 = some (0, 50) := by
    have h := mkEngine_good smallOpts 0 (by norm_num [smallOpts])
    simpa [offsetOf, smallOpts] using h
  have htot : getTotalHeight (mkEngine smallOpts) =
      offsetOf smallOpts.itemHeight smallOpts.itemCount :=
    getTotalHeight_built (mkEngine_good smallOpts) (by rw [mk_opts]; norm_num [smallOpts])
  refine ⟨?_, ?_, ?_, ?_⟩
  · intro p hp
    rw [scrollToIndex_hit a hp]
  · intro hnone
    simp [scrollToIndex, hnone]
  · rw [scrollToIndex_hit Align.acenter h0]
    show alignTarget (0, 50) (mkEngine smallOpts).opts.containerHeight Align.acenter = -225
    norm_num [alignTarget, smallOpts]
  · rw [scrollToIndex_hit Align.acenter h0, htot]
    norm_num [alignTarget, smallOpts, offsetOf_const]

/-- Witness for C10: the cache of the 10-item engine holds `(0, 50)` at
index 0, and centering item 0 stores the raw target `-225`. -/
theorem C10_scrollToIndex_raw_store_and_miss_witness :
    (mkEngine smallOpts).cache 0 = some (0, 50) ∧
    (scrollToIndex (mkEngine smallOpts) 0 Align.acenter).1.state.scrollOffset =
      alignTarget (0, 50) (mkEngine smallOpts).opts.containerHeight Align.acenter := by
  have h0 : (mkEngine smallOpts).cache 0 = some (0, 50) := by
    have h := mkEngine_good smallOpts 0 (by norm_num [smallOpts])
    simpa [offsetOf, smallOpts] using h
  exact ⟨h0,
    (C10_scrollToIndex_raw_store_and_miss (mkEngine smallOpts) 0 Align.acenter).1 (0, 50) h0⟩

lemma cv_opts (e : Engine) (t now : ℚ) : (calculateVelocity e t now).2.opts = e.opts := by
  unfold calculateVelocity
  by_cases h : now - e.lastScrollTime = 0 <;> simp [h]

lemma cv_cache (e : Engine) (t now : ℚ) : (calculateVelocity e t now).2.cache = e.cache := by
  unfold calculateVelocity
  by_cases h : now - e.lastScrollTime = 0 <;> simp [h]

lemma cv_state (e : Engine) (t now : ℚ) : (calculateVelocity e t now).2.state = e.state := by
  unfold calculateVelocity
  by_cases h : now - e.lastScrollTime = 0 <;> simp [h]

lemma cv_callback (e : Engine) (t now : ℚ) :
    (calculateVelocity e t now).2.callback = e.callback := by
  unfold calculateVelocity
  by_cases h : now - e.lastScrollTime = 0 <;> simp [h]

/-- `updateVisibleRange` keeps the located index inside the stored range,
provided `itemCount ≥ 1` and the configured `minOverscan` is non-negative. -/
lemma uvr_bounds (e : Engine) (cache : ℤ → Option (ℚ × ℚ)) (N : ℕ) (t : ℚ)
    (hcache : e.cache = cache) (hN' : e.opts.itemCount = N) (ht : e.state.scrollOffset = t)
    (hN : 1 ≤ N) (hm : 0 ≤ e.opts.minOverscan) :
    (updateVisibleRange e).state.startIndex ≤ (findStartIndex cache N t : ℚ) ∧
    (findStartIndex cache N t : ℚ) ≤ (updateVisibleRange e).state.endIndex := by
  subst hcache hN' ht
  have hov : 0 ≤ calculateDynamicOverscan e.opts e.state.scrollVelocity :=
    le_trans hm (le_max_left _ _)
  have hsle : findStartIndex e.cache e.opts.itemCount e.state.scrollOffset ≤
      e.opts.itemCount - 1 :=
    fsiLoop_le e.cache e.state.scrollOffset 0 e.opts.itemCount (Nat.zero_le _)
  have hsleQ : (findStartIndex e.cache e.opts.itemCount e.state.scrollOffset : ℚ) ≤
      (e.opts.itemCount : ℚ) - 1 := by
    have h1 : findStartIndex e.cache e.opts.itemCount e.state.scrollOffset + 1 ≤
        e.opts.itemCount := by omega
    have h2 : ((findStartIndex e.cache e.opts.itemCount e.state.scrollOffset + 1 : ℕ) : ℚ) ≤
        ((e.opts.itemCount : ℕ) : ℚ) := by exact_mod_cast h1
    push_cast at h2
    linarith
  constructor
  · show max 0 ((findStartIndex e.cache e.opts.itemCount e.state.scrollOffset : ℚ) -
        calculateDynamicOverscan e.opts e.state.scrollVelocity) ≤ _
    apply max_le
    · positivity
    · linarith
  · show _ ≤ min ((e.opts.itemCount : ℚ) - 1)
        ((findStartIndex e.cache e.opts.itemCount e.state.scrollOffset : ℚ) +
          (visLoop e.cache e.state.scrollOffset e.opts.containerHeight e.opts.itemCount
            (findStartIndex e.cache e.opts.itemCount e.state.scrollOffset) : ℚ) +
          calculateDynamicOverscan e.opts e.state.scrollVelocity)
    apply le_min hsleQ
    have hvis : (0 : ℚ) ≤ (visLoop e.cache e.state.scrollOffset e.opts.containerHeight
        e.opts.itemCount (findStartIndex e.cache e.opts.itemCount e.state.scrollOffset) : ℚ) := by
      positivity
    linarith

/-- The range produced by `updateVisibleRange` is clamped. -/
lemma uvr_inv (e : Engine) :
    0 ≤ (updateVisibleRange e).state.startIndex ∧
    (updateVisibleRange e).state.endIndex < ((updateVisibleRange e).opts.itemCount : ℚ) := by
  constructor
  · exact le_max_left _ _
  · apply lt_of_le_of_lt (min_le_left _ _)
    rw [uvr_opts]
    linarith

/-- C5: after every `handleScroll` on an engine with at least one item and a
non-negative configured `minOverscan`, the located start index lies inside
the stored visible range; and in every reachable engine state the range is
clamped: `startIndex ≥ 0` and `endIndex < itemCount`. -/
theorem C5_range_containment_and_clamped :
    (∀ (e : Engine) (t now : ℚ), 1 ≤ e.opts.itemCount → 0 ≤ e.opts.minOverscan →
      (handleScroll e t now).1.state.startIndex ≤
        (findStartIndex e.cache e.opts.itemCount t : ℚ) ∧
      (findStartIndex e.cache e.opts.itemCount t : ℚ) ≤
        (handleScroll e t now).1.state.endIndex) ∧
    (∀ e : Engine, Reachable e →
      0 ≤ e.state.startIndex ∧ e.state.endIndex < (e.opts.itemCount : ℚ)) := by
  constructor
  · intro e t now hN hm
    exact uvr_bounds
      { (calculateVelocity e t now).2 with state :=
        { (calculateVelocity e t now).2.state with
          scrollOffset := t, scrollVelocity := (calculateVelocity e t now).1,
          isScrolling := true } }
      e.cache e.opts.itemCount t (cv_cache e t now) (congrArg OptimizedOptions.itemCount
        (cv_opts e t now)) rfl hN
      (by rw [show ({ (calculateVelocity e t now).2 with state :=
        { (calculateVelocity e t now).2.state with
          scrollOffset := t, scrollVelocity := (calculateVelocity e t now).1,
          isScrolling := true } } : Engine).opts = (calculateVelocity e t now).2.opts from rfl,
        cv_opts]; exact hm)
  · intro e hr
    induction hr with
    | init o => exact uvr_inv _
    | scroll t now hr ih => exact uvr_inv _
    | fire hr hta ih => exact uvr_inv _
    | toIndex i a hr ih =>
        rename_i e'
        rcases hcc : e'.cache i with _ | p
        · simpa [scrollToIndex, hcc] using ih
        · rw [scrollToIndex_hit a hcc]
          refine ⟨le_max_left _ _, ?_⟩
          apply lt_of_le_of_lt (min_le_left _ _)
          linarith
    | update p hr ih =>
        rename_i e'
        by_cases hb : (p.itemCount.isSome || p.itemHeight.isSome) = true
        · have hred : (updateOptions e' p).1 =
              updateVisibleRange (calculateItemPositions { e' with opts := mergeOptions e'.opts p }) := by
            simp [updateOptions, hb]
          rw [hred]
          exact uvr_inv _
        · have hbf : (p.itemCount.isSome || p.itemHeight.isSome) = false := by
            simpa using hb
          have hic : p.itemCount = none := by
            rcases h : p.itemCount with _ | v
            · rfl
            · rw [h] at hbf
              simp at hbf
          have hred : (updateOptions e' p).1 = { e' with opts := mergeOptions e'.opts p } := by
            simp [updateOptions, hbf]
          rw [hred]
          refine ⟨ih.1, ?_⟩
          show e'.state.endIndex < ((mergeOptions e'.opts p).itemCount : ℚ)
          rw [show (mergeOptions e'.opts p).itemCount = p.itemCount.getD e'.opts.itemCount
            from rfl, hic]
          exact ih.2
    | subscribe hr ih => exact ih
    | teardown hr ih => exact ih

/-- Witness for C5: scrolling the 1000-item demo engine to offset 1000 keeps
the located index between the stored bounds, and the constructed demo engine
is clamped. -/
theorem C5_range_containment_and_clamped_witness :
    (1 ≤ (mkEngine demoOpts).opts.itemCount ∧
      (0 : ℚ) ≤ (mkEngine demoOpts).opts.minOverscan) ∧
    ((handleScroll (mkEngine demoOpts) 1000 10).1.state.startIndex ≤
      (findStartIndex (mkEngine demoOpts).cache (mkEngine demoOpts).opts.itemCount 1000 : ℚ) ∧
     (findStartIndex (mkEngine demoOpts).cache (mkEngine demoOpts).opts.itemCount 1000 : ℚ) ≤
      (handleScroll (mkEngine demoOpts) 1000 10).1.state.endIndex) ∧
    (0 ≤ (mkEngine demoOpts).state.startIndex ∧
      (mkEngine demoOpts).state.endIndex < ((mkEngine demoOpts).opts.itemCount : ℚ)) := by
  refine ⟨⟨by rw [mk_opts]; norm_num [demoOpts], by rw [mk_opts]; norm_num [demoOpts]⟩, ?_, ?_⟩
  · exact C5_range_containment_and_clamped.1 (mkEngine demoOpts) 1000 10
      (by rw [mk_opts]; norm_num [demoOpts]) (by rw [mk_opts]; norm_num [demoOpts])
  · exact C5_range_containment_and_clamped.2 (mkEngine demoOpts) (Reachable.init demoOpts)

lemma hs_opts (e : Engine) (t now : ℚ) : (handleScroll e t now).1.opts = e.opts := by
  show (updateVisibleRange _).opts = e.opts
  rw [uvr_opts]
  exact cv_opts e t now

lemma fire_overscan (e : Engine) :
    (fireScrollEnd e).1.state.overscan = calculateDynamicOverscan e.opts 0 := rfl

/-- C6 (amended): when the scroll-end timer fires, the engine goes idle —
`isScrolling = false`, velocity 0, scroll offset kept, pending timer
consumed, callback notified — but the final overscan is the *clamped* base:
`max minOverscan (min maxOverscan (round baseOverscan))`, because
`updateVisibleRange` recomputes the dynamic overscan at velocity 0 after the
timer body wrote `baseOverscan`; it equals `baseOverscan` only when the base
lies within the configured bounds. -/
theorem C6_scrollEnd_idle_reset (e : Engine) (hcb : e.callback = true) :
    (fireScrollEnd e).1.state.isScrolling = false ∧
    (fireScrollEnd e).1.state.scrollVelocity = 0 ∧
    (fireScrollEnd e).1.state.overscan =
      max e.opts.minOverscan (min e.opts.maxOverscan (jsRound e.opts.overscanCount)) ∧
    (fireScrollEnd e).1.state.scrollOffset = e.state.scrollOffset ∧
    (fireScrollEnd e).1.timerActive = false ∧
    (fireScrollEnd e).2 = [(fireScrollEnd e).1.state] := by
  refine ⟨rfl, rfl, ?_, rfl, rfl, ?_⟩
  · rw [fire_overscan]
    unfold calculateDynamicOverscan
    norm_num
  · have hr : (fireScrollEnd e).2 = notifyList (fireScrollEnd e).1 := rfl
    rw [hr]
    unfold notifyList
    rw [show (fireScrollEnd e).1.callback = e.callback from rfl, hcb]
    rfl

/-- Witness for C6 (amended): on the demo engine with an attached callback,
firing the timer yields velocity 0 and a notification. -/
theorem C6_scrollEnd_idle_reset_witness :
    (onUpdate (mkEngine demoOpts)).callback = true ∧
    (fireScrollEnd (onUpdate (mkEngine demoOpts))).1.state.scrollVelocity = 0 ∧
    (fireScrollEnd (onUpdate (mkEngine demoOpts))).2 =
      [(fireScrollEnd (onUpdate (mkEngine demoOpts))).1.state] := by
  have h := C6_scrollEnd_idle_reset (onUpdate (mkEngine demoOpts)) rfl
  exact ⟨rfl, h.2.1, h.2.2.2.2.2⟩

/-- Counterexample to C6 as stated: with base overscan 3 and bounds `[1, 2]`
(`tightOpts`), the state after the scroll-end timer fires carries overscan 2,
not the configured `overscanCount = 3` — the claim's "overscan ==
baseOverscan unconditionally for every configuration of
minOverscan/maxOverscan" fails. -/
theorem C6_scrollEnd_overscan_not_base :
    (handleScroll (mkEngine tightOpts) 0 10).1.timerActive = true ∧
    (fireScrollEnd (handleScroll (mkEngine tightOpts) 0 10).1).1.state.overscan = 2 ∧
    tightOpts.overscanCount = 3 := by
  refine ⟨rfl, ?_, rfl⟩
  rw [fire_overscan, hs_opts, mk_opts]
  unfold calculateDynamicOverscan
  norm_num [tightOpts, jsRound]

/-- C7 evaluated at the failing input: updating only `containerHeight`
merges the option but performs no visible-range recompute and no
notification, although a callback is attached — `updateOptions` notifies
only when `itemCount` or `itemHeight` is supplied. -/
theorem C7_updateOptions_silent_on_containerHeight :
    (updateOptions (onUpdate (mkEngine demoOpts))
        ⟨none, none, some 600, none, none, none, none⟩).2 = [] ∧
    (updateOptions (onUpdate (mkEngine demoOpts))
        ⟨none, none, some 600, none, none, none, none⟩).1.state =
      (onUpdate (mkEngine demoOpts)).state ∧
    (updateOptions (onUpdate (mkEngine demoOpts))
        ⟨none, none, some 600, none, none, none, none⟩).1.opts.containerHeight = 600 ∧
    (onUpdate (mkEngine demoOpts)).callback = true :=
  ⟨rfl, rfl, rfl, rfl⟩

/-- Counterexample to C8 as stated: build 2 items of size 50, then shrink
`itemCount` to 1 via `updateOptions`.  Index 1 is now outside
`[0, itemCount)`, yet `getItemOffset` returns the stale cached offset 50,
not 0 — `calculateItemPositions` never clears entries beyond the new count. -/
theorem C8_stale_cache_after_shrink :
    (updateOptions (mkEngine twoOpts)
        ⟨some 1, none, none, none, none, none, none⟩).1.opts.itemCount = 1 ∧
    getItemOffset (updateOptions (mkEngine twoOpts)
        ⟨some 1, none, none, none, none, none, none⟩).1 1 = 50 := by
  refine ⟨rfl, ?_⟩
  have hcc : (updateOptions (mkEngine twoOpts)
      ⟨some 1, none, none, none, none, none, none⟩).1.cache (1 : ℤ) =
      (mkEngine twoOpts).cache 1 := by
    show calcLoop (mergeOptions (mkEngine twoOpts).opts
        ⟨some 1, none, none, none, none, none, none⟩).itemHeight
      (mkEngine twoOpts).cache 0 0 1 (1 : ℤ) = _
    exact calcLoop_get_out _ 1 0 _ _ 1 (by norm_num)
  have h1 : (mkEngine twoOpts).cache 1 = some (50, 50) := by
    have h := mkEngine_good twoOpts 1 (by norm_num [twoOpts])
    simpa [twoOpts, offsetOf] using h
  simp [getItemOffset, hcc, h1]

/-- C8 (amended): `getItemOffset` / `getItemSize` return 0 for every index
that was never populated by a build (negative, or at/past the constructed
`itemCount`); but an index dropped by an `updateOptions` call that shrank
`itemCount` still returns its stale cached offset and size from the earlier
larger build, not 0. -/
theorem C8_out_of_range_lookup (o : OptimizedOptions) (i : ℤ)
    (h : i < 0 ∨ (o.itemCount : ℤ) ≤ i) (N' : ℕ) (j : ℕ)
    (hj1 : N' ≤ j) (hj2 : j < o.itemCount) :
    getItemOffset (mkEngine o) i = 0 ∧ getItemSize (mkEngine o) i = 0 ∧
    getItemOffset (updateOptions (mkEngine o)
        ⟨some N', none, none, none, none, none, none⟩).1 (j : ℤ) =
      offsetOf o.itemHeight j ∧
    getItemSize (updateOptions (mkEngine o)
        ⟨some N', none, none, none, none, none, none⟩).1 (j : ℤ) =
      o.itemHeight j := by
  have hnone : (mkEngine o).cache i = none := by
    show calcLoop o.itemHeight (fun _ => none) 0 0 o.itemCount i = none
    rw [calcLoop_get_out o.itemHeight o.itemCount 0 _ _ i (by push_cast; omega)]
  have hcc : (updateOptions (mkEngine o)
      ⟨some N', none, none, none, none, none, none⟩).1.cache (j : ℤ) =
      (mkEngine o).cache j := by
    show calcLoop (mergeOptions (mkEngine o).opts
        ⟨some N', none, none, none, none, none, none⟩).itemHeight
      (mkEngine o).cache 0 0 N' (j : ℤ) = _
    exact calcLoop_get_out _ N' 0 _ _ _ (by push_cast; omega)
  have hj := mkEngine_good o j hj2
  exact ⟨by simp [getItemOffset, hnone], by simp [getItemSize, hnone],
    by simp [getItemOffset, hcc, hj], by simp [getItemSize, hcc, hj]⟩

/-- Witness for C8 (amended): on the two-item engine, index 5 was never
populated and reads 0; after shrinking to 1 item, the dropped index 1 reads
its stale offset `offsetOf _ 1 = 50`. -/
theorem C8_out_of_range_lookup_witness :
    ((5 : ℤ) < 0 ∨ ((twoOpts.itemCount : ℕ) : ℤ) ≤ 5) ∧
    getItemOffset (mkEngine twoOpts) 5 = 0 ∧
    getItemOffset (updateOptions (mkEngine twoOpts)
        ⟨some 1, none, none, none, none, none, none⟩).1 ((1 : ℕ) : ℤ) =
      offsetOf twoOpts.itemHeight 1 := by
  have h := C8_out_of_range_lookup twoOpts 5
    (by norm_num [twoOpts]) 1 1 (le_refl 1) (by norm_num [twoOpts])
  exact ⟨by norm_num [twoOpts], h.1, h.2.2.1⟩

/-- A pending host timer implies the `scrollEndTimer` field is non-null in
every reachable state. -/
lemma timer_field_inv {e : Engine} (hr : Reachable e) :
    e.timerActive = true → e.timerSet = true := by
  induction hr with
  | init o => intro h; exact absurd h (by simp [mkEngine, calculateItemPositions])
  | scroll t now hr ih => intro _; rfl
  | fire hr hta ih =>
      intro h
      exact absurd h (by simp [fireScrollEnd])
  | toIndex i a hr ih =>
      rename_i e'
      rcases hcc : e'.cache i with _ | p
      · simp only [scrollToIndex, hcc]
        exact ih
      · rw [scrollToIndex_hit a hcc]
        exact ih
  | update p hr ih =>
      rename_i e'
      by_cases hb : (p.itemCount.isSome || p.itemHeight.isSome) = true
      · have hred : (updateOptions e' p).1 = updateVisibleRange
            (calculateItemPositions { e' with opts := mergeOptions e'.opts p }) := by
          simp [updateOptions, hb]
        rw [hred]
        exact ih
      · have hbf : (p.itemCount.isSome || p.itemHeight.isSome) = false := by simpa using hb
        have hred : (updateOptions e' p).1 = { e' with opts := mergeOptions e'.opts p } := by
          simp [updateOptions, hbf]
        rw [hred]
        exact ih
  | subscribe hr ih => exact ih
  | teardown hr ih =>
      rename_i e'
      intro h
      show e'.timerSet = true
      rcases hts : e'.timerSet with _ | _
      · have hd : (destroy e').timerActive = e'.timerActive := by simp [destroy, hts]
        rw [hd] at h
        have hset := ih h
        rw [hts] at hset
        exact hset
      · rfl

lemma handleScroll_snd_no_callback (e : Engine) (t now : ℚ) (h : e.callback = false) :
    (handleScroll e t now).2 = [] := by
  have hc : (updateVisibleRange { (calculateVelocity e t now).2 with state :=
      { (calculateVelocity e t now).2.state with
        scrollOffset := t, scrollVelocity := (calculateVelocity e t now).1,
        isScrolling := true } }).callback = e.callback := by
    rw [uvr_callback]
    exact cv_callback e t now
  show notifyList _ = []
  unfold notifyList
  rw [hc, h]
  rfl

lemma scrollToIndex_snd_no_callback (e : Engine) (i : ℤ) (a : Align)
    (h : e.callback = false) : (scrollToIndex e i a).2.1 = [] := by
  rcases hcc : e.cache i with _ | p
  · simp [scrollToIndex, hcc]
  · rw [scrollToIndex_hit a hcc]
    show notifyList _ = []
    unfold notifyList
    rw [show ({ e with state :=
      { e.state with
        scrollOffset := alignTarget p e.opts.containerHeight a
        startIndex := max 0 ((i : ℚ) - e.opts.maxOverscan)
        endIndex := min ((e.opts.itemCount : ℚ) - 1) ((i : ℚ) + e.opts.maxOverscan) } }
          : Engine).callback = e.callback from rfl, h]
    rfl

lemma updateOptions_snd_no_callback (e : Engine) (p : OptionsPatch)
    (h : e.callback = false) : (updateOptions e p).2 = [] := by
  by_cases hb : (p.itemCount.isSome || p.itemHeight.isSome) = true
  · simp [updateOptions, hb, notifyList, h]
  · have hbf : (p.itemCount.isSome || p.itemHeight.isSome) = false := by simpa using hb
    simp [updateOptions, hbf]

lemma fireScrollEnd_snd_no_callback (e : Engine) (h : e.callback = false) :
    (fireScrollEnd e).2 = [] := by
  have hr : (fireScrollEnd e).2 = notifyList (fireScrollEnd e).1 := rfl
  rw [hr]
  unfold notifyList
  rw [show (fireScrollEnd e).1.callback = e.callback from rfl, h]
  rfl

/-- C9 (amended): `destroy` cancels the pending host timer (no timer is
active afterwards, so the timer pending at destruction can never fire) and
detaches the callback, a second `destroy` is a no-op on the resulting
engine, and no subsequent operation ever notifies the detached callback —
but subsequent operations are *not* state no-ops (see the counterexample). -/
theorem C9_destroy_cancels_and_detaches (e : Engine) (hr : Reachable e) :
    (destroy e).timerActive = false ∧
    (destroy e).callback = false ∧
    destroy (destroy e) = destroy e ∧
    (∀ t now : ℚ, (handleScroll (destroy e) t now).2 = []) ∧
    (∀ (i : ℤ) (a : Align), (scrollToIndex (destroy e) i a).2.1 = []) ∧
    (∀ p : OptionsPatch, (updateOptions (destroy e) p).2 = []) ∧
    (fireScrollEnd (destroy e)).2 = [] := by
  have hta : (destroy e).timerActive = false := by
    rcases hts : e.timerSet with _ | _
    · rcases hact : e.timerActive with _ | _
      · simp [destroy, hts, hact]
      · have := timer_field_inv hr hact
        rw [hts] at this
        exact absurd this (by simp)
    · simp [destroy, hts]
  have hcb : (destroy e).callback = false := rfl
  refine ⟨hta, hcb, ?_, fun t now => handleScroll_snd_no_callback _ t now hcb,
    fun i a => scrollToIndex_snd_no_callback _ i a hcb,
    fun p => updateOptions_snd_no_callback _ p hcb,
    fireScrollEnd_snd_no_callback _ hcb⟩
  obtain ⟨o, st, c, l1, l2, ts, ta, cb⟩ := e
  rcases ts with _ | _ <;> rfl

/-- Witness for C9 (amended): destroying the demo engine after a scroll
leaves no active timer and further scrolls notify nobody. -/
theorem C9_destroy_cancels_and_detaches_witness :
    (destroy (handleScroll (onUpdate (mkEngine demoOpts)) 100 10).1).timerActive = false ∧
    (handleScroll (destroy (handleScroll (onUpdate (mkEngine demoOpts)) 100 10).1) 200 20).2 =
      [] := by
  have h := C9_destroy_cancels_and_detaches
    (handleScroll (onUpdate (mkEngine demoOpts)) 100 10).1
    (Reachable.scroll 100 10 (Reachable.subscribe (Reachable.init demoOpts)))
  exact ⟨h.1, h.2.2.2.1 200 20⟩

/-- Counterexample to C9 as stated: after `destroy`, `handleScroll` is not a
no-op — it still overwrites the engine state (the scroll offset changes from
0 to 100). -/
theorem C9_destroyed_handleScroll_mutates :
    (handleScroll (destroy (mkEngine smallOpts)) 100 10).1.state ≠
      (destroy (mkEngine smallOpts)).state := by
  intro h
  have h1 : (handleScroll (destroy (mkEngine smallOpts)) 100 10).1.state.scrollOffset =
      100 := rfl
  rw [h] at h1
  have h2 : (destroy (mkEngine smallOpts)).state.scrollOffset = 0 := rfl
  rw [h2] at h1
  norm_num at h1

end VirtualScrollOptimized
